import Mathlib

/-
Verification development for the `tap-dataverse` stream logic
(`tap_dataverse/streams.py`, class `DataverseTableStream`).

The Python code is shallowly embedded: the stream's configuration is a
structure, the stored replication-key value (Singer state) and the
continuation token are explicit parameters, Python dicts are association
lists with Python's insertion/overwrite semantics, and exceptions raised
by `get_starting_timestamp` are an `Except` value that `get_url_params`
pattern-matches on, mirroring its `try/except (ValueError, AttributeError)`
block.  External library functions used by the code (`pendulum.parse`,
`datetime.strftime`, `urllib.parse.parse_qsl`, `extract_jsonpath`) are
translated to executable Lean functions on the fragment of their input
space the code exercises (ISO-8601 calendar dates / datetimes, the fixed
JSON path `$.value[*]`, ASCII percent-encoding).
-/

set_option autoImplicit false

namespace TapDataverse

/-! ## Generic helpers: Python dict as an association list -/

/-- Python dict assignment `m[k] = v`: overwrite in place (keeping the key's
position) when the key is present, append otherwise.  All dicts built by the
embedded code start from `[]`, so keys are unique and this matches CPython. -/
def dset {α : Type} : List (String × α) → String → α → List (String × α)
  | [], k, v => [(k, v)]
  | (k', v') :: rest, k, v =>
      if k' = k then (k, v) :: rest else (k', v') :: dset rest k v

/-- Python dict lookup `m[k]` / `k in m`, returning `none` when absent. -/
def dget {α : Type} : List (String × α) → String → Option α
  | [], _ => none
  | (k', v') :: rest, k => if k' = k then some v' else dget rest k

/-- Python `dict(pairs)`: fold the pairs into a dict, later pairs overwriting
earlier ones with the same key. -/
def toDict {α : Type} (ps : List (String × α)) : List (String × α) :=
  ps.foldl (fun m kv => dset m kv.1 kv.2) []

/-- The keys of a dict, in order. -/
def keysOf {α : Type} (m : List (String × α)) : List String :=
  m.map Prod.fst

/-! ## Python string splitting -/

/-- Python `s.split(sep)` on a one-character separator (total split). -/
def pySplitAll (sep : Char) : List Char → List (List Char)
  | [] => [[]]
  | c :: rest =>
      let r := pySplitAll sep rest
      if c = sep then [] :: r
      else
        match r with
        | [] => [[c]]
        | h :: t => (c :: h) :: t

/-- Python `s.split(sep, 1)` combined with the `sep in s` test: `none` when
the separator does not occur, otherwise the parts before and after its first
occurrence. -/
def pySplitOnce (sep : Char) : List Char → Option (List Char × List Char)
  | [] => none
  | c :: rest =>
      if c = sep then some ([], rest)
      else (pySplitOnce sep rest).map (fun p => (c :: p.1, p.2))

/-! ## urllib.parse.parse_qsl -/

/-- Hexadecimal digit value used by percent-decoding. -/
def hexVal (c : Char) : Nat :=
  if '0' ≤ c ∧ c ≤ '9' then c.toNat - 48
  else if 'a' ≤ c ∧ c ≤ 'f' then c.toNat - 87
  else if 'A' ≤ c ∧ c ≤ 'F' then c.toNat - 55
  else 0

def isHexDigit (c : Char) : Bool :=
  ('0' ≤ c ∧ c ≤ '9') ∨ ('a' ≤ c ∧ c ≤ 'f') ∨ ('A' ≤ c ∧ c ≤ 'F')

/-- Percent-decoding of `urllib.parse.unquote`, bytewise: a valid `%XY`
sequence becomes the character with code `16*X + Y`, an invalid one is kept
literally. -/
def pctDecode : List Char → List Char
  | '%' :: a :: b :: rest =>
      if isHexDigit a ∧ isHexDigit b then
        Char.ofNat (16 * hexVal a + hexVal b) :: pctDecode rest
      else '%' :: pctDecode (a :: b :: rest)
  | c :: rest => c :: pctDecode rest
  | [] => []

/-- The component decoding done by `parse_qsl`: `.replace('+', ' ')` followed
by `unquote`. -/
def unquote_plus (cs : List Char) : String :=
  String.mk (pctDecode (cs.map (fun c => if c = '+' then ' ' else c)))

/-- urllib.parse.parse_qsl with default arguments: split the query string on
ampersands, skip empty fields, fields without an equals sign and fields with
an empty value, and decode names and values. -/
def parse_qsl (qs : String) : List (String × String) :=
  (pySplitAll '&' qs.data).filterMap (fun nv =>
    if nv = [] then none
    else
      match pySplitOnce '=' nv with
      | none => none
      | some (n, v) => if v = [] then none else some (unquote_plus n, unquote_plus v))

/-! ## pendulum.parse (ISO-8601 calendar date / datetime fragment) -/

/-- A parsed timestamp, as the fields of a pendulum UTC `DateTime`. -/
structure Timestamp where
  year : Nat
  month : Nat
  day : Nat
  hour : Nat
  minute : Nat
  second : Nat
  microsecond : Nat
  deriving DecidableEq

def dval (c : Char) : Nat := c.toNat - 48

def digitsToNat (l : List Char) : Nat :=
  l.foldl (fun a c => 10 * a + dval c) 0

def isLeapYear (y : Nat) : Bool := y % 4 = 0 ∧ (y % 100 ≠ 0 ∨ y % 400 = 0)

def daysInMonth (y m : Nat) : Nat :=
  if m = 2 then (if isLeapYear y then 29 else 28)
  else if m = 4 ∨ m = 6 ∨ m = 9 ∨ m = 11 then 30
  else 31

/-- Fractional-second part: one to six digits, optionally followed by a final
Z, scaled to microseconds. -/
def parseMicro (cs : List Char) : Option Nat :=
  let ds := cs.takeWhile Char.isDigit
  let rest := cs.dropWhile Char.isDigit
  if ds = [] ∨ 6 < ds.length then none
  else if rest = [] ∨ rest = ['Z'] then some (digitsToNat ds * 10 ^ (6 - ds.length))
  else none

/-- Time-of-day part after the T separator: HH:MM:SS with optional fraction
and optional trailing Z. -/
def parseTime (cs : List Char) : Option (Nat × Nat × Nat × Nat) :=
  match cs with
  | h1 :: h2 :: ':' :: m1 :: m2 :: ':' :: s1 :: s2 :: rest =>
      if h1.isDigit ∧ h2.isDigit ∧ m1.isDigit ∧ m2.isDigit ∧ s1.isDigit ∧ s2.isDigit then
        let hh := 10 * dval h1 + dval h2
        let mm := 10 * dval m1 + dval m2
        let ss := 10 * dval s1 + dval s2
        if hh ≤ 23 ∧ mm ≤ 59 ∧ ss ≤ 59 then
          match rest with
          | [] => some (hh, mm, ss, 0)
          | ['Z'] => some (hh, mm, ss, 0)
          | '.' :: fr => (parseMicro fr).map (fun us => (hh, mm, ss, us))
          | _ => none
        else none
      else none
  | _ => none

/-- Model of `pendulum.parse` on ISO-8601 calendar dates (`YYYY-MM-DD`,
midnight UTC) and datetimes (`YYYY-MM-DDTHH:MM:SS[.ffffff][Z]`); every other
input is a parse failure (pendulum raises `ParserError`, a `ValueError`). -/
def pendulum_parse (s : String) : Option Timestamp :=
  match s.data with
  | y1 :: y2 :: y3 :: y4 :: '-' :: o1 :: o2 :: '-' :: d1 :: d2 :: rest =>
      if y1.isDigit ∧ y2.isDigit ∧ y3.isDigit ∧ y4.isDigit ∧
         o1.isDigit ∧ o2.isDigit ∧ d1.isDigit ∧ d2.isDigit then
        let y := digitsToNat [y1, y2, y3, y4]
        let mo := 10 * dval o1 + dval o2
        let d := 10 * dval d1 + dval d2
        if 1 ≤ mo ∧ mo ≤ 12 ∧ 1 ≤ d ∧ d ≤ daysInMonth y mo then
          match rest with
          | [] => some ⟨y, mo, d, 0, 0, 0, 0⟩
          | 'T' :: t => (parseTime t).map (fun q => ⟨y, mo, d, q.1, q.2.1, q.2.2.1, q.2.2.2⟩)
          | _ => none
        else none
      else none
  | _ => none

/-! ## datetime.strftime -/

/-- Decimal digit characters of a natural number (what Python's d-formats
print); the first argument is structural fuel, always sufficient when at
least the number itself. -/
def natDigitsAux : Nat → Nat → List Char → List Char
  | 0, _, acc => acc
  | fuel + 1, n, acc =>
      if n = 0 then acc
      else natDigitsAux fuel (n / 10) (Char.ofNat (48 + n % 10) :: acc)

def natDigits (n : Nat) : List Char :=
  if n = 0 then ['0'] else natDigitsAux (n + 1) n []

/-- Zero-padded decimal rendering, as strftime's `%02d`-style directives. -/
def padDigits (w n : Nat) : List Char :=
  let ds := natDigits n
  List.replicate (w - ds.length) '0' ++ ds

/-- Character rendering of the strftime format `%Y-%m-%dT%H:%M:%S.%fZ`. -/
def strftimeChars (t : Timestamp) : List Char :=
  padDigits 4 t.year ++ '-' :: padDigits 2 t.month ++ '-' :: padDigits 2 t.day ++
    'T' :: padDigits 2 t.hour ++ ':' :: padDigits 2 t.minute ++ ':' :: padDigits 2 t.second ++
    '.' :: padDigits 6 t.microsecond ++ ['Z']

/-- The code's `timestamp.strftime("%Y-%m-%dT%H:%M:%S.%fZ")` (streams.py
line 128): microsecond-precision UTC rendering with a literal trailing Z. -/
def strftime_micro (t : Timestamp) : String :=
  String.mk (strftimeChars t)

/-! ## The stream model (streams.py, class DataverseTableStream) -/

/-- The per-stream attributes consulted by `get_starting_timestamp` and
`get_url_params`.  Empty strings model unset (falsy) configuration values,
exactly as in the Python code.  `is_timestamp_replication_key` is the Singer
SDK property of that name (true when the replication key's schema declares a
date-time type). -/
structure DataverseTableStream where
  replication_key : String
  start_date : String
  custom_query_params : String
  is_timestamp_replication_key : Bool

/-- The two `ValueError`s that `get_starting_timestamp` can raise: the
explicit raise for a non-timestamp replication key (line 80), and pendulum's
`ParserError` on an unparseable stored value (line 81). -/
inductive TsError where
  | keyType
  | bookmarkParse
  deriving DecidableEq

/-- streams.py lines 56-83, `get_starting_timestamp`.  `stored` is
`self.get_starting_replication_key_value(context)`.  `Except.error` models a
raised `ValueError`. -/
def get_starting_timestamp (s : DataverseTableStream) (stored : Option String) :
    Except TsError (Option Timestamp) :=
  match stored with
  | none =>
      if s.start_date ≠ "" then
        match pendulum_parse s.start_date with
        | some t => Except.ok (some t)
        | none => Except.ok none
      else Except.ok none
  | some v =>
      if s.is_timestamp_replication_key then
        match pendulum_parse v with
        | some t => Except.ok (some t)
        | none => Except.error TsError.bookmarkParse
      else Except.error TsError.keyType

/-- streams.py lines 125-136: the `try/except (ValueError, AttributeError)`
block of `get_url_params` computing `last_run_date`. -/
def resolve_last_run_date (s : DataverseTableStream) (stored : Option String) :
    Option String :=
  match get_starting_timestamp s stored with
  | Except.ok (some t) => some (strftime_micro t)
  | Except.ok none => if s.start_date ≠ "" then some s.start_date else none
  | Except.error _ =>
      match stored with
      | some v => some v
      | none => if s.start_date ≠ "" then some s.start_date else none

/-- streams.py lines 138-143: the `$orderby` and `$filter` entries built from
the replication key and `last_run_date` (both guarded by Python truthiness). -/
def base_params (s : DataverseTableStream) (lrd : Option String) :
    List (String × String) :=
  if s.replication_key ≠ "" then
    let p := dset [] "$orderby" (s.replication_key ++ " asc")
    match lrd with
    | some d => if d ≠ "" then dset p "$filter" (s.replication_key ++ " ge " ++ d) else p
    | none => p
  else []

/-- streams.py lines 145-155: merging of the custom query-parameter string,
splitting on ampersands, then on the first equals sign, combining a custom
`$filter` with an existing one by parenthesised logical AND. -/
def apply_custom (custom : String) (params : List (String × String)) :
    List (String × String) :=
  if custom ≠ "" then
    (pySplitAll '&' custom.data).foldl (fun ps param =>
      match pySplitOnce '=' param with
      | none => ps
      | some (k, v) =>
          let key := String.mk k
          let value := String.mk v
          match (if key = "$filter" then dget ps "$filter" else none) with
          | some old => dset ps "$filter" ("(" ++ old ++ ") and (" ++ value ++ ")")
          | none => dset ps key value) params
  else params

/-- streams.py lines 111-163, `get_url_params`.  `next_page_token` carries the
query component of the `ParseResult` token (the only part the code reads); a
present token replaces the whole parameter dict with `dict(parse_qsl(query))`
(lines 157-160). -/
def get_url_params (s : DataverseTableStream) (stored : Option String)
    (next_page_token : Option String) : List (String × String) :=
  let lrd := resolve_last_run_date s stored
  let params := base_params s lrd
  let params := apply_custom s.custom_query_params params
  match next_page_token with
  | some q => toDict (parse_qsl q)
  | none => params

/-! ## parse_response (streams.py lines 41, 165-175) -/

/-- JSON values, as returned by `response.json()`. -/
inductive Json where
  | null
  | bool (b : Bool)
  | num (n : Int)
  | str (s : String)
  | arr (xs : List Json)
  | obj (fields : List (String × Json))

/-- Dict member lookup on a JSON value. -/
def jget (j : Json) (key : String) : Option Json :=
  match j with
  | Json.obj fields => (fields.find? (fun p => p.1 == key)).map Prod.snd
  | _ => none

/-- streams.py line 41: `self.records_path = "$.value[*]"`. -/
def records_path : String := "$.value[*]"

/-- Model of singer_sdk's `extract_jsonpath` on paths of the shape
`$.field[*]`: member lookup followed by the jsonpath star slice, which yields
the elements of a list, the member values of a dict, and nothing on scalars
or a missing member. -/
def extract_jsonpath (path : String) (input : Json) : List Json :=
  match path.data with
  | '$' :: '.' :: rest =>
      let field := rest.takeWhile (fun c => c ≠ '[')
      if rest = field ++ ['[', '*', ']'] then
        match jget input (String.mk field) with
        | some (Json.arr xs) => xs
        | some (Json.obj kvs) => kvs.map Prod.snd
        | _ => []
      else []
  | _ => []

/-- streams.py lines 165-175, `parse_response`: yield the records selected by
`records_path` from the response body. -/
def parse_response (body : Json) : List Json :=
  extract_jsonpath records_path body

/-! ## post_process (streams.py lines 177-211) -/

/-- Modelled from the spec: `sql_attribute_name` from `tap_dataverse/utils.py`
is not part of the sources; per the spec it rewrites a field name to a
SQL-identifier-safe form — letters, digits and underscores, with a leading
letter or underscore — purely and deterministically.  Characters outside the
safe set become underscores and a leading underscore is added when the name
does not already start with a letter or underscore. -/
def sqlSafeChar (c : Char) : Char :=
  if c.isAlpha ∨ c.isDigit ∨ c = '_' then c else '_'

def sqlRenameChars (l : List Char) : List Char :=
  match l.map sqlSafeChar with
  | [] => []
  | c :: rest => if c.isAlpha ∨ c = '_' then c :: rest else '_' :: c :: rest

def sql_attribute_name (s : String) : String :=
  String.mk (sqlRenameChars s.data)

/-- One step of the dict comprehension of streams.py line 209: insert the
pair under its sanitized key. -/
def renameStep {α : Type} (m : List (String × α)) (kv : String × α) :
    List (String × α) :=
  dset m (sql_attribute_name kv.1) kv.2

/-- streams.py line 209: the dict comprehension renaming every key of the row
through `sql_attribute_name` (Python dict semantics: a later pair overwrites
an earlier one mapping to the same sanitized name). -/
def rename_keys {α : Type} (row : List (String × α)) : List (String × α) :=
  row.foldl renameStep []

/-- streams.py lines 177-211, `post_process`.  `sql_attribute_names` is the
value of `self.config.get("sql_attribute_names")`; the row is a dict with
arbitrary values.  The Python function returns `dict | None`; it only ever
returns a dict. -/
def post_process {α : Type} (sql_attribute_names : Bool) (row : List (String × α)) :
    Option (List (String × α)) :=
  if sql_attribute_names then
    some (rename_keys row)
  else
    some row

/-! ## Helper lemmas about the dict operations -/

theorem keysOf_nil {α : Type} : keysOf ([] : List (String × α)) = [] := rfl

theorem keysOf_cons {α : Type} (p : String × α) (m : List (String × α)) :
    keysOf (p :: m) = p.1 :: keysOf m := rfl

theorem keysOf_append {α : Type} (a b : List (String × α)) :
    keysOf (a ++ b) = keysOf a ++ keysOf b := List.map_append _ _ _

theorem mem_dset {α : Type} {m : List (String × α)} {k : String} {v : α}
    {p : String × α} (h : p ∈ dset m k v) : p ∈ m ∨ p = (k, v) := by
  induction m with
  | nil =>
      simp only [dset, List.mem_singleton] at h
      exact Or.inr h
  | cons q rest ih =>
      obtain ⟨k', v'⟩ := q
      by_cases hk : k' = k
      · simp only [dset, if_pos hk, List.mem_cons] at h
        rcases h with h | h
        · exact Or.inr h
        · exact Or.inl (List.mem_cons_of_mem _ h)
      · simp only [dset, if_neg hk, List.mem_cons] at h
        rcases h with h | h
        · exact Or.inl (h ▸ List.mem_cons_self _ _)
        · rcases ih h with h' | h'
          · exact Or.inl (List.mem_cons_of_mem _ h')
          · exact Or.inr h'

theorem mem_keysOf_dset {α : Type} {m : List (String × α)} {k : String} {v : α}
    {a : String} (h : a ∈ keysOf (dset m k v)) : a ∈ keysOf m ∨ a = k := by
  induction m with
  | nil =>
      simp only [dset, keysOf, List.map_cons, List.map_nil, List.mem_singleton] at h
      exact Or.inr h
  | cons q rest ih =>
      obtain ⟨k', v'⟩ := q
      by_cases hk : k' = k
      · simp only [dset, if_pos hk, keysOf, List.map_cons, List.mem_cons] at h ⊢
        rcases h with h | h
        · exact Or.inr h
        · exact Or.inl (Or.inr h)
      · simp only [dset, if_neg hk, keysOf, List.map_cons, List.mem_cons] at h ⊢
        rcases h with h | h
        · exact Or.inl (Or.inl h)
        · rcases ih h with h' | h'
          · exact Or.inl (Or.inr h')
          · exact Or.inr h'

theorem nodup_keysOf_dset {α : Type} {m : List (String × α)} (k : String) (v : α)
    (h : (keysOf m).Nodup) : (keysOf (dset m k v)).Nodup := by
  induction m with
  | nil => simp [dset, keysOf]
  | cons q rest ih =>
      obtain ⟨k', v'⟩ := q
      simp only [keysOf, List.map_cons, List.nodup_cons] at h
      by_cases hk : k' = k
      · subst hk
        have hd : dset ((k', v') :: rest) k' v = (k', v) :: rest := by simp [dset]
        rw [hd]
        simp only [keysOf, List.map_cons, List.nodup_cons]
        exact h
      · simp only [dset, if_neg hk, keysOf, List.map_cons, List.nodup_cons]
        refine ⟨fun hm => ?_, ih h.2⟩
        rcases mem_keysOf_dset hm with h' | h'
        · exact h.1 h'
        · exact hk h'

theorem dset_eq_append {α : Type} {m : List (String × α)} {k : String} (v : α)
    (h : k ∉ keysOf m) : dset m k v = m ++ [(k, v)] := by
  induction m with
  | nil => rfl
  | cons q rest ih =>
      obtain ⟨k', v'⟩ := q
      simp only [keysOf, List.map_cons, List.mem_cons] at h
      have hk : k' ≠ k := fun he => h (Or.inl he.symm)
      simp only [dset, if_neg hk, List.cons_append]
      rw [ih (fun hm => h (Or.inr hm))]

/-! ## Helper lemmas about splitting -/

theorem pySplitAll_eq_single {sep : Char} {cs : List Char} (h : sep ∉ cs) :
    pySplitAll sep cs = [cs] := by
  induction cs with
  | nil => rfl
  | cons c rest ih =>
      have hc : ¬c = sep := fun he => h (he ▸ List.mem_cons_self _ _)
      have hr : sep ∉ rest := fun hm => h (List.mem_cons_of_mem _ hm)
      simp [pySplitAll, hc, ih hr]

theorem pySplitOnce_eq {sep : Char} {pre post : List Char} (h : sep ∉ pre) :
    pySplitOnce sep (pre ++ sep :: post) = some (pre, post) := by
  induction pre with
  | nil => simp [pySplitOnce]
  | cons c t ih =>
      have hc : ¬c = sep := fun he => h (he ▸ List.mem_cons_self _ _)
      have ht : sep ∉ t := fun hm => h (List.mem_cons_of_mem _ hm)
      simp [pySplitOnce, hc, ih ht]

/-! ## Helper lemmas about strings and strftime -/

theorem stringMk_data (l : List Char) : (String.mk l).data = l := rfl

theorem stringMk_eq_self (s : String) : String.mk s.data = s := rfl

theorem strftime_micro_ne_empty (t : Timestamp) : strftime_micro t ≠ "" := by
  intro h
  have h2 : strftimeChars t = [] := congrArg String.data h
  simp only [strftimeChars] at h2
  rcases List.append_eq_nil.mp h2 with ⟨_, h3⟩
  exact List.cons_ne_nil _ _ h3

/-! ## Helper lemmas about sanitization -/

theorem sqlSafeChar_idem (c : Char) : sqlSafeChar (sqlSafeChar c) = sqlSafeChar c := by
  by_cases h : (c.isAlpha = true ∨ c.isDigit = true ∨ c = '_')
  · simp [sqlSafeChar, h]
  · have h1 : sqlSafeChar c = '_' := by simp [sqlSafeChar, h]
    rw [h1]
    decide

theorem map_sqlSafeChar_idem (l : List Char) :
    (l.map sqlSafeChar).map sqlSafeChar = l.map sqlSafeChar := by
  induction l with
  | nil => rfl
  | cons c t ih => simp [sqlSafeChar_idem, ih]

theorem sqlRenameChars_idem (l : List Char) :
    sqlRenameChars (sqlRenameChars l) = sqlRenameChars l := by
  cases hM : l.map sqlSafeChar with
  | nil =>
      have h1 : sqlRenameChars l = [] := by
        unfold sqlRenameChars
        rw [hM]
      rw [h1]
      rfl
  | cons c rest =>
      have hfix : (c :: rest).map sqlSafeChar = c :: rest := by
        rw [← hM, map_sqlSafeChar_idem]
      have h1 : sqlRenameChars l =
          if (c.isAlpha = true ∨ c = '_') then c :: rest else '_' :: c :: rest := by
        unfold sqlRenameChars
        rw [hM]
      by_cases hc : (c.isAlpha = true ∨ c = '_')
      · have h2 : sqlRenameChars l = c :: rest := by rw [h1, if_pos hc]
        rw [h2]
        unfold sqlRenameChars
        rw [hfix]
        exact if_pos hc
      · have h2 : sqlRenameChars l = '_' :: c :: rest := by rw [h1, if_neg hc]
        rw [h2]
        have hu : ('_' :: c :: rest).map sqlSafeChar = '_' :: c :: rest := by
          rw [List.map_cons, hfix]
          rfl
        unfold sqlRenameChars
        rw [hu]
        exact if_pos (Or.inr rfl)

theorem sql_attribute_name_idem (s : String) :
    sql_attribute_name (sql_attribute_name s) = sql_attribute_name s := by
  simp only [sql_attribute_name, stringMk_data, sqlRenameChars_idem]

/-! ## Helper lemmas about the renaming fold -/

theorem mem_rename_fold {α : Type} (l : List (String × α)) (acc : List (String × α))
    (p : String × α) (h : p ∈ l.foldl renameStep acc) :
    p ∈ acc ∨ ∃ q, q ∈ l ∧ p = (sql_attribute_name q.1, q.2) := by
  induction l generalizing acc with
  | nil => exact Or.inl h
  | cons kv t ih =>
      rcases ih (renameStep acc kv) h with h' | ⟨q, hq, he⟩
      · rcases mem_dset h' with h'' | he
        · exact Or.inl h''
        · exact Or.inr ⟨kv, List.mem_cons_self _ _, he⟩
      · exact Or.inr ⟨q, List.mem_cons_of_mem _ hq, he⟩

theorem nodup_rename_fold {α : Type} (l : List (String × α)) (acc : List (String × α))
    (h : (keysOf acc).Nodup) : (keysOf (l.foldl renameStep acc)).Nodup := by
  induction l generalizing acc with
  | nil => exact h
  | cons kv t ih => exact ih _ (nodup_keysOf_dset _ _ h)

theorem rename_fold_fixed {α : Type} (l : List (String × α)) (acc : List (String × α))
    (hfix : ∀ p ∈ l, sql_attribute_name p.1 = p.1)
    (hnd : (keysOf acc ++ keysOf l).Nodup) :
    l.foldl renameStep acc = acc ++ l := by
  induction l generalizing acc with
  | nil => simp
  | cons kv t ih =>
      obtain ⟨k, v⟩ := kv
      have hk : sql_attribute_name k = k := hfix (k, v) (List.mem_cons_self _ _)
      have hknotin : k ∉ keysOf acc := by
        intro hmem
        exact List.disjoint_of_nodup_append hnd hmem (List.mem_cons_self _ _)
      have hstep : renameStep acc (k, v) = acc ++ [(k, v)] := by
        simp only [renameStep, hk]
        exact dset_eq_append v hknotin
      have hnd2 : (keysOf (acc ++ [(k, v)]) ++ keysOf t).Nodup := by
        rw [keysOf_append]
        have : keysOf acc ++ keysOf [(k, v)] ++ keysOf t =
            keysOf acc ++ (k :: keysOf t) := by
          rw [List.append_assoc]
          rfl
        rw [this]
        simpa [keysOf] using hnd
      have hfix2 : ∀ p ∈ t, sql_attribute_name p.1 = p.1 :=
        fun p hp => hfix p (List.mem_cons_of_mem _ hp)
      calc ((k, v) :: t).foldl renameStep acc
          = t.foldl renameStep (renameStep acc (k, v)) := rfl
        _ = t.foldl renameStep (acc ++ [(k, v)]) := by rw [hstep]
        _ = (acc ++ [(k, v)]) ++ t := ih _ hfix2 hnd2
        _ = acc ++ (k, v) :: t := by simp

/-! ## Claim C4 -/

/-- C4: for every call to `get_url_params` with a continuation token present,
the returned parameter set is exactly `dict(parse_qsl(token.query))` — the
key-value pairs parsed from the token's query component — regardless of the
stream configuration, stored bookmark, ordering clause, filter clause or
custom query parameters. -/
theorem c4_token_total_precedence (s : DataverseTableStream)
    (stored : Option String) (q : String) :
    get_url_params s stored (some q) = toDict (parse_qsl q) := rfl

/-! ## Claim C5 -/

/-- C5: for a stream configured with start_date 2024-01-01 and replication
key modifiedon, with no stored state and no continuation token, the first
request's parameters are exactly the ascending order clause and the filter
clause bounded by 2024-01-01T00:00:00.000000Z (the start date formatted as a
microsecond-precision UTC timestamp with a literal trailing Z). -/
theorem c5_first_request_exact_params :
    get_url_params ⟨"modifiedon", "2024-01-01", "", true⟩ none none =
      [("$orderby", "modifiedon asc"),
       ("$filter", "modifiedon ge 2024-01-01T00:00:00.000000Z")] := by
  decide

/-! ## Claim C8 -/

/-- C8: for every response payload, the records returned by `parse_response`
are exactly the elements of the top-level value array selected by the fixed
JSON path of `records_path`; a missing value member, like an empty value
array, yields zero records (and `parse_response` is a total function, so no
error is raised). -/
theorem c8_parse_response_value_array (j : Json) :
    (∀ xs, jget j "value" = some (Json.arr xs) → parse_response j = xs) ∧
    (jget j "value" = none → parse_response j = []) := by
  have hp : parse_response j =
      (match jget j "value" with
       | some (Json.arr xs) => xs
       | some (Json.obj kvs) => kvs.map Prod.snd
       | _ => []) := rfl
  constructor
  · intro xs h
    rw [hp, h]
  · intro h
    rw [hp, h]

/-- Witness for C8 at the payload of the spec's scenario: an object whose
value member is the empty array yields zero records. -/
theorem c8_parse_response_value_array_witness :
    parse_response (Json.obj [("value", Json.arr [])]) = [] :=
  (c8_parse_response_value_array (Json.obj [("value", Json.arr [])])).1 [] rfl

/-! ## Claim C1 -/

/-- C1 counterexample: for the stream with non-timestamp replication key
status and stored bookmark 5, `get_starting_timestamp` does raise (the
modelled ValueError), but `get_url_params` swallows it and produces a
non-empty parameter set using the raw stored value as the filter bound — the
claim's assertion that no request parameters are produced is false. -/
theorem c1_counterexample :
    get_starting_timestamp ⟨"status", "", "", false⟩ (some "5") =
      Except.error TsError.keyType ∧
    get_url_params ⟨"status", "", "", false⟩ (some "5") none =
      [("$orderby", "status asc"), ("$filter", "status ge 5")] ∧
    get_url_params ⟨"status", "", "", false⟩ (some "5") none ≠ [] := by
  refine ⟨rfl, rfl, ?_⟩
  decide

/-- C1 amended: for every stream whose replication key is declared
non-timestamp and that has a stored bookmark value, `get_starting_timestamp`
raises a ValueError (the replication-key type error), but `get_url_params`
catches it and falls back to the raw stored value as the filter bound:
request parameters are still produced (an ordering clause plus a filter
clause bounded by the stored value verbatim), so the error is not surfaced
to the caller and a request is issued. -/
theorem c1_amended (s : DataverseTableStream) (v : String)
    (h1 : s.is_timestamp_replication_key = false)
    (h2 : s.replication_key ≠ "")
    (h3 : s.custom_query_params = "")
    (h4 : v ≠ "") :
    get_starting_timestamp s (some v) = Except.error TsError.keyType ∧
    get_url_params s (some v) none =
      [("$orderby", s.replication_key ++ " asc"),
       ("$filter", s.replication_key ++ " ge " ++ v)] := by
  obtain ⟨rk, sd, cq, ts⟩ := s
  simp only at h1 h2 h3
  subst h1 h3
  constructor
  · simp [get_starting_timestamp]
  · simp [get_url_params, resolve_last_run_date, get_starting_timestamp,
      base_params, apply_custom, dset, h2, h4]

/-- Witness for C1 amended at the stream with replication key status, no
start date, no custom parameters, a non-timestamp key and stored value 5. -/
theorem c1_amended_witness :
    get_starting_timestamp ⟨"status", "", "", false⟩ (some "5") =
      Except.error TsError.keyType ∧
    get_url_params ⟨"status", "", "", false⟩ (some "5") none =
      [("$orderby", "status asc"), ("$filter", "status ge 5")] :=
  c1_amended ⟨"status", "", "", false⟩ "5" rfl (by decide) rfl (by decide)

/-! ## Claim C2 -/

/-- C2 counterexample: with a timestamp-typed replication key and the stored
bookmark garbage (not parseable as a timestamp), `get_starting_timestamp`
raises, but `get_url_params` catches the ValueError and returns parameters
whose filter floor is the raw invalid stored value — the sync silently
continues with an invalid floor instead of failing fatally. -/
theorem c2_counterexample :
    pendulum_parse "garbage" = none ∧
    get_starting_timestamp ⟨"modifiedon", "", "", true⟩ (some "garbage") =
      Except.error TsError.bookmarkParse ∧
    get_url_params ⟨"modifiedon", "", "", true⟩ (some "garbage") none =
      [("$orderby", "modifiedon asc"), ("$filter", "modifiedon ge garbage")] := by
  refine ⟨rfl, rfl, ?_⟩
  decide

/-- C2 amended: for every stream with a timestamp-typed replication key and a
stored bookmark value that does not parse as a timestamp,
`get_starting_timestamp` raises a ValueError (pendulum's parse error), but
`get_url_params` catches it and continues, issuing the request with the raw
stored value as the filter bound; the error does not propagate to the
caller of `get_url_params`. -/
theorem c2_amended (s : DataverseTableStream) (v : String)
    (h1 : s.is_timestamp_replication_key = true)
    (h2 : pendulum_parse v = none)
    (h3 : s.replication_key ≠ "")
    (h4 : s.custom_query_params = "")
    (h5 : v ≠ "") :
    get_starting_timestamp s (some v) = Except.error TsError.bookmarkParse ∧
    get_url_params s (some v) none =
      [("$orderby", s.replication_key ++ " asc"),
       ("$filter", s.replication_key ++ " ge " ++ v)] := by
  obtain ⟨rk, sd, cq, ts⟩ := s
  simp only at h1 h3 h4
  subst h1 h4
  constructor
  · simp [get_starting_timestamp, h2]
  · simp [get_url_params, resolve_last_run_date, get_starting_timestamp,
      base_params, apply_custom, dset, h2, h3, h5]

/-- Witness for C2 amended at the stream with timestamp-typed replication key
modifiedon and stored value garbage. -/
theorem c2_amended_witness :
    get_starting_timestamp ⟨"modifiedon", "", "", true⟩ (some "garbage") =
      Except.error TsError.bookmarkParse ∧
    get_url_params ⟨"modifiedon", "", "", true⟩ (some "garbage") none =
      [("$orderby", "modifiedon asc"), ("$filter", "modifiedon ge garbage")] :=
  c2_amended ⟨"modifiedon", "", "", true⟩ "garbage" rfl rfl (by decide) rfl (by decide)

/-! ## Claim C3 -/

/-- C3 counterexample: with no stored bookmark and the unparseable start date
not-a-date, the first request is not unbounded: `get_url_params` falls back
to the raw configured string and issues the request with the malformed value
as the filter bound, refuting the claim's no-floor assertion. -/
theorem c3_counterexample :
    pendulum_parse "not-a-date" = none ∧
    get_url_params ⟨"modifiedon", "not-a-date", "", true⟩ none none =
      [("$orderby", "modifiedon asc"), ("$filter", "modifiedon ge not-a-date")] := by
  refine ⟨rfl, ?_⟩
  decide

/-- C3 amended: for every stream with no stored bookmark and a start_date
string that fails to parse as a timestamp, the failure is indeed non-fatal
(`get_starting_timestamp` logs a warning and returns no timestamp rather
than raising), but the first request is then issued with the malformed
start_date string itself as the filter bound — not with an unbounded
no-floor filter. -/
theorem c3_amended (s : DataverseTableStream)
    (h1 : pendulum_parse s.start_date = none)
    (h2 : s.start_date ≠ "")
    (h3 : s.replication_key ≠ "")
    (h4 : s.custom_query_params = "") :
    get_starting_timestamp s none = Except.ok none ∧
    get_url_params s none none =
      [("$orderby", s.replication_key ++ " asc"),
       ("$filter", s.replication_key ++ " ge " ++ s.start_date)] := by
  obtain ⟨rk, sd, cq, ts⟩ := s
  simp only at h1 h2 h3 h4
  subst h4
  constructor
  · simp [get_starting_timestamp, h1, h2]
  · simp [get_url_params, resolve_last_run_date, get_starting_timestamp,
      base_params, apply_custom, dset, h1, h2, h3]

/-- Witness for C3 amended at the stream with replication key modifiedon and
start date not-a-date. -/
theorem c3_amended_witness :
    get_starting_timestamp ⟨"modifiedon", "not-a-date", "", true⟩ none =
      Except.ok none ∧
    get_url_params ⟨"modifiedon", "not-a-date", "", true⟩ none none =
      [("$orderby", "modifiedon asc"), ("$filter", "modifiedon ge not-a-date")] :=
  c3_amended ⟨"modifiedon", "not-a-date", "", true⟩ rfl (by decide) (by decide) rfl

/-! ## Claim C7 -/

/-- C7 counterexample: with the stored bookmark 2024-01-01 (timestamp-typed
key, parseable value), the first request's filter bound is the re-formatted
2024-01-01T00:00:00.000000Z, which is not equal to the stored bookmark
value — so the bound does not literally equal the stored value. -/
theorem c7_counterexample :
    get_url_params ⟨"modifiedon", "", "", true⟩ (some "2024-01-01") none =
      [("$orderby", "modifiedon asc"),
       ("$filter", "modifiedon ge 2024-01-01T00:00:00.000000Z")] ∧
    ("2024-01-01T00:00:00.000000Z" : String) ≠ "2024-01-01" := by
  constructor
  · decide
  · decide

/-- C7 amended: for every stream with a stored bookmark value and a
timestamp-typed replication key whose stored value parses as a timestamp,
the first request's filter bound equals the stored value re-parsed and
re-formatted as a microsecond-precision UTC timestamp (so it equals the
stored string verbatim exactly when that string is already in canonical
format); the configured start_date is not consulted. -/
theorem c7_amended (s : DataverseTableStream) (v : String) (t : Timestamp)
    (h1 : s.is_timestamp_replication_key = true)
    (h2 : pendulum_parse v = some t)
    (h3 : s.replication_key ≠ "")
    (h4 : s.custom_query_params = "") :
    get_url_params s (some v) none =
      [("$orderby", s.replication_key ++ " asc"),
       ("$filter", s.replication_key ++ " ge " ++ strftime_micro t)] := by
  obtain ⟨rk, sd, cq, ts⟩ := s
  simp only at h1 h3 h4
  subst h1 h4
  simp [get_url_params, resolve_last_run_date, get_starting_timestamp,
    base_params, apply_custom, dset, h2, h3, strftime_micro_ne_empty t]

/-- Witness for C7 amended at the stored bookmark 2024-01-01, showing the
bound 2024-01-01T00:00:00.000000Z while start_date is the unrelated
2030-12-31 (unused). -/
theorem c7_amended_witness :
    get_url_params ⟨"modifiedon", "2030-12-31", "", true⟩ (some "2024-01-01") none =
      [("$orderby", "modifiedon asc"),
       ("$filter", "modifiedon ge 2024-01-01T00:00:00.000000Z")] :=
  c7_amended ⟨"modifiedon", "2030-12-31", "", true⟩ "2024-01-01"
    ⟨2024, 1, 1, 0, 0, 0, 0⟩ rfl rfl (by decide) rfl

/-! ## Claim C6 -/

/-- C6: for every stream whose custom query-parameter string is a single
key=value entry and for which a replication filter clause was computed, the
merge behaves as claimed: when the custom key is the filter key, the single
resulting filter value combines the two expressions by logical AND, each
wrapped in parentheses, existing-then-custom; any other custom key simply
overwrites or adds to the parameter set (dict assignment). -/
theorem c6_custom_filter_merge (s : DataverseTableStream) (stored : Option String)
    (d k v : String)
    (hk : s.replication_key ≠ "")
    (hd : resolve_last_run_date s stored = some d)
    (hd2 : d ≠ "")
    (hc : s.custom_query_params = k ++ "=" ++ v)
    (h1 : '&' ∉ k.data)
    (h2 : '&' ∉ v.data)
    (h3 : '=' ∉ k.data) :
    get_url_params s stored none =
      (if k = "$filter" then
        [("$orderby", s.replication_key ++ " asc"),
         ("$filter", "(" ++ (s.replication_key ++ " ge " ++ d) ++ ") and (" ++ v ++ ")")]
      else
        dset [("$orderby", s.replication_key ++ " asc"),
              ("$filter", s.replication_key ++ " ge " ++ d)] k v) := by
  have hdata : (k ++ "=" ++ v).data = k.data ++ '=' :: v.data := by
    rw [String.data_append, String.data_append]
    simp [List.append_assoc]
  have hne : (k ++ "=" ++ v) ≠ "" := by
    intro h
    have h' : (k ++ "=" ++ v).data = [] := congrArg String.data h
    rw [hdata] at h'
    rcases List.append_eq_nil.mp h' with ⟨_, h''⟩
    exact List.cons_ne_nil _ _ h''
  have hnotamp : '&' ∉ (k ++ "=" ++ v).data := by
    rw [hdata]
    intro hm
    rcases List.mem_append.mp hm with hm | hm
    · exact h1 hm
    · rcases List.mem_cons.mp hm with he | hm
      · exact absurd he (by decide)
      · exact h2 hm
  have hbase : base_params s (resolve_last_run_date s stored) =
      [("$orderby", s.replication_key ++ " asc"),
       ("$filter", s.replication_key ++ " ge " ++ d)] := by
    rw [hd]
    simp [base_params, hk, hd2, dset]
  have honce : pySplitOnce '=' (k ++ "=" ++ v).data = some (k.data, v.data) := by
    rw [hdata]
    exact pySplitOnce_eq h3
  show apply_custom s.custom_query_params
      (base_params s (resolve_last_run_date s stored)) = _
  rw [hbase, hc]
  unfold apply_custom
  rw [if_pos hne, pySplitAll_eq_single hnotamp]
  simp only [List.foldl_cons, List.foldl_nil]
  rw [honce]
  simp only [stringMk_eq_self]
  by_cases hkf : k = "$filter"
  · subst hkf
    simp [dget, dset]
  · rw [if_neg hkf]
    simp only []
    rw [if_neg hkf]

/-- Witness for C6 at the spec's scenario: custom parameter string
consisting of a single custom filter entry, merged with the computed
replication filter by parenthesised AND. -/
theorem c6_custom_filter_merge_witness :
    get_url_params
      ⟨"modifiedon", "2024-01-01", "$filter=objectidtypecode eq contact", true⟩
      none none =
      [("$orderby", "modifiedon asc"),
       ("$filter",
        "(modifiedon ge 2024-01-01T00:00:00.000000Z) and (objectidtypecode eq contact)")] := by
  have h := c6_custom_filter_merge
    ⟨"modifiedon", "2024-01-01", "$filter=objectidtypecode eq contact", true⟩
    none "2024-01-01T00:00:00.000000Z" "$filter" "objectidtypecode eq contact"
    (by decide) (by decide) (by decide) (by decide) (by decide) (by decide) (by decide)
  rw [if_pos rfl] at h
  exact h

/-! ## Claim C9 -/

/-- C9: field-name sanitization in `post_process` is idempotent — with
`sql_attribute_names` enabled, applying `post_process` to the result of
`post_process` yields the same record as applying it once, for every
record. -/
theorem c9_post_process_idempotent {α : Type} (row : List (String × α)) :
    (post_process true row).bind (fun r => post_process true r) =
      post_process true row := by
  show some (rename_keys (rename_keys row)) = some (rename_keys row)
  have hfix : ∀ p ∈ rename_keys row, sql_attribute_name p.1 = p.1 := by
    intro p hp
    rcases mem_rename_fold row [] p hp with h | ⟨q, _, he⟩
    · exact absurd h (List.not_mem_nil p)
    · rw [he]
      exact sql_attribute_name_idem q.1
  have hnd : (keysOf (rename_keys row)).Nodup :=
    nodup_rename_fold row [] List.nodup_nil
  have h := rename_fold_fixed (rename_keys row) [] hfix (by simpa using hnd)
  show some ((rename_keys row).foldl renameStep []) = _
  rw [h]
  rw [List.nil_append]

/-! ## Claim C10 -/

/-- C10: `post_process` never returns the record-exclusion value: for every
flag and record it returns a record (no record is dropped between extraction
and emission); with sanitization disabled the record is returned unchanged,
and with sanitization enabled the result is the key-renaming of the record,
in which every value is a value of the input record passed through
untouched, under the sanitized form of its original key. -/
theorem c10_post_process_never_none {α : Type} (b : Bool) (row : List (String × α)) :
    (post_process b row).isSome = true ∧
    post_process false row = some row ∧
    post_process true row = some (rename_keys row) ∧
    (∀ p ∈ rename_keys row, ∃ key, (key, p.2) ∈ row ∧ p.1 = sql_attribute_name key) := by
  refine ⟨?_, rfl, rfl, ?_⟩
  · cases b <;> rfl
  · intro p hp
    rcases mem_rename_fold row [] p hp with h | ⟨q, hq, he⟩
    · exact absurd h (List.not_mem_nil p)
    · refine ⟨q.1, ?_, ?_⟩
      · rw [he]
        exact hq
      · rw [he]

/-- Witness for C10 at a concrete record with an unsafe field name and a
Nat value. -/
theorem c10_post_process_never_none_witness :
    ((post_process true [("a b", (0 : Nat))]).isSome = true ∧
     post_process false [("a b", (0 : Nat))] = some [("a b", (0 : Nat))] ∧
     post_process true [("a b", (0 : Nat))] = some (rename_keys [("a b", (0 : Nat))]) ∧
     (∀ p ∈ rename_keys [("a b", (0 : Nat))],
        ∃ key, (key, p.2) ∈ [("a b", (0 : Nat))] ∧ p.1 = sql_attribute_name key)) :=
  c10_post_process_never_none true [("a b", (0 : Nat))]

end TapDataverse
